import Mathlib

/-
Verification of the document-processing pipeline orchestrator.

The pipeline chains four nodes (router, ocr, carbon, auditor) over a shared
state record.  External collaborators (the PDF store, the status table, the
inference service, the persistence layer) are modelled as an environment of
oracles: each call either returns a value or raises with a message string,
mirroring Python exceptions.  Every node application additionally returns the
list of external effects it attempted (reads, status updates, inference
invocations, database writes), so that short-circuit claims about "no write,
no status update" are provable.  A node that lets an exception escape
(a missing-key read on the state dictionary, which in the source happens
outside the try block) is modelled as `Except.error`, representing an
uncaught exception propagating out of the pipeline.
-/

set_option maxHeartbeats 1000000

-- ── JSON-like values and string-keyed dictionaries ──────────────────

inductive JsonVal : Type where
  | null : JsonVal
  | bool : Bool → JsonVal
  | num : Int → JsonVal
  | str : String → JsonVal
  | arr : List JsonVal → JsonVal
  | obj : List (String × JsonVal) → JsonVal

abbrev Dict := List (String × JsonVal)

def dictGet : Dict → String → Option JsonVal
  | [], _ => none
  | (k, v) :: rest, key => if k = key then some v else dictGet rest key

def dictGetD (d : Dict) (key : String) (dflt : JsonVal) : JsonVal :=
  (dictGet d key).getD dflt

def dictSet : Dict → String → JsonVal → Dict
  | [], key, v => [(key, v)]
  | (k, w) :: rest, key, v =>
      if k = key then (k, v) :: rest else (k, w) :: dictSet rest key v

-- Python: `for key, val in page.items(): if val is not None: acc[key] = val`
def mergeNonNull (acc page : Dict) : Dict :=
  page.foldl (fun a kv =>
    match kv.2 with
    | JsonVal.null => a
    | v => dictSet a kv.1 v) acc

-- ── External effects attempted by the pipeline ──────────────────────

inductive Effect : Type where
  | pdfRead (docId : String) : Effect
  | statusUpdate (docId status : String) : Effect
  | invoke (stage : String) : Effect
  | dbWrite (table docId : String) (payload : JsonVal) : Effect

-- ── Environment of collaborators ────────────────────────────────────
-- `Except.error m` models a raised exception whose `str(exc)` is `m`.

structure Env : Type where
  getPdf : String → Except String (String × List Nat)
  updateStatus : String → String → Except String Unit
  renderPages : List Nat → Except String (List String)
  ocrInvoke : String → Except String String
  parseJson : String → Option Dict
  saveExtracted : String → Dict → Except String Unit
  loadCarbonIndex : Except String Dict
  carbonInvoke : Dict → Dict → Except String String
  saveCarbon : String → Dict → Except String Unit
  auditInvoke : Dict → Except String String
  saveAudit : String → Dict → Except String Unit

-- ── Agent 1: OCR extraction (src/agents/ocr_agent.py, extract_fields) ──

def ocrFallbackPage (resp : String) : Dict :=
  [("_raw_page_text", JsonVal.str resp)]

def ocrPages (env : Env) (imgs : List String) (acc : Dict) :
    List Effect × Except String Dict :=
  match imgs with
  | [] => ([], Except.ok acc)
  | img :: rest =>
      match env.ocrInvoke img with
      | Except.error m => ([Effect.invoke "ocr"], Except.error m)
      | Except.ok resp =>
          let page :=
            match env.parseJson resp with
            | some pd => pd
            | none => ocrFallbackPage resp
          let out := ocrPages env rest (mergeNonNull acc page)
          (Effect.invoke "ocr" :: out.1, out.2)

def extract_fields (env : Env) (docId : String) (pdfBytes : List Nat) :
    List Effect × Except String Dict :=
  match env.renderPages pdfBytes with
  | Except.error m => ([], Except.error m)
  | Except.ok imgs =>
      match ocrPages env imgs [] with
      | (t, Except.error m) => (t, Except.error m)
      | (t, Except.ok fields) =>
          let t2 := t ++ [Effect.dbWrite "extracted_fields" docId (JsonVal.obj fields)]
          match env.saveExtracted docId fields with
          | Except.error m => (t2, Except.error m)
          | Except.ok _ => (t2, Except.ok fields)

-- ── Agent 2: carbon calculation (src/agents/carbon_agent.py) ──────────

def carbonFallback (resp : String) : Dict :=
  [("total_carbon_kg", JsonVal.num 0), ("breakdown", JsonVal.arr []),
   ("_raw_response", JsonVal.str resp)]

def calculate_carbon (env : Env) (docId : String) (extracted : Dict) :
    List Effect × Except String Dict :=
  match env.loadCarbonIndex with
  | Except.error m => ([], Except.error m)
  | Except.ok idx =>
      match env.carbonInvoke extracted idx with
      | Except.error m => ([Effect.invoke "carbon"], Except.error m)
      | Except.ok resp =>
          let result :=
            match env.parseJson resp with
            | some r => r
            | none => carbonFallback resp
          let t := [Effect.invoke "carbon",
                    Effect.dbWrite "carbon_results" docId (JsonVal.obj result)]
          match env.saveCarbon docId result with
          | Except.error m => (t, Except.error m)
          | Except.ok _ => (t, Except.ok result)

-- ── Agent 3: auditor (src/agents/auditor_agent.py) ────────────────────

def auditFallback (carbon : Dict) (resp : String) : Dict :=
  [("hotspots", JsonVal.arr []), ("recommendations", JsonVal.arr []),
   ("total_emissions", dictGetD carbon "total_carbon_kg" (JsonVal.num 0)),
   ("risk_level", JsonVal.str "unknown"), ("_raw_response", JsonVal.str resp)]

-- The row written by _save_audit_report (defaults applied per column).
def auditRow (report : Dict) : Dict :=
  [("hotspots", dictGetD report "hotspots" (JsonVal.arr [])),
   ("recommendations", dictGetD report "recommendations" (JsonVal.arr [])),
   ("total_emissions", dictGetD report "total_emissions" (JsonVal.num 0)),
   ("risk_level", dictGetD report "risk_level" (JsonVal.str "unknown"))]

def audit (env : Env) (docId : String) (carbon : Dict) :
    List Effect × Except String Dict :=
  match env.auditInvoke carbon with
  | Except.error m => ([Effect.invoke "audit"], Except.error m)
  | Except.ok resp =>
      let report :=
        match env.parseJson resp with
        | some r => r
        | none => auditFallback carbon resp
      let t := [Effect.invoke "audit",
                Effect.dbWrite "audit_reports" docId (JsonVal.obj (auditRow report))]
      match env.saveAudit docId report with
      | Except.error m => (t, Except.error m)
      | Except.ok _ => (t, Except.ok report)

-- ── Pipeline state (orchestrator.py, PipelineState) ───────────────────

structure PipelineState : Type where
  doc_id : String
  pdf_bytes : Option (List Nat)
  extracted_fields : Option Dict
  carbon_result : Option Dict
  audit_report : Option Dict
  error : Option String

-- Python truthiness of `state.get("error")`: absent and "" are falsy.
def hasError (s : PipelineState) : Bool :=
  match s.error with
  | some e => e != ""
  | none => false

def initState (docId : String) : PipelineState :=
  { doc_id := docId, pdf_bytes := none, extracted_fields := none,
    carbon_result := none, audit_report := none, error := none }

-- ── The four graph nodes (orchestrator.py) ────────────────────────────

def router_node (env : Env) (s : PipelineState) :
    List Effect × Except String PipelineState :=
  match env.getPdf s.doc_id with
  | Except.error m =>
      ([Effect.pdfRead s.doc_id], Except.ok { s with error := some m })
  | Except.ok (_, pdfBytes) =>
      match env.updateStatus s.doc_id "ocr" with
      | Except.error m =>
          ([Effect.pdfRead s.doc_id, Effect.statusUpdate s.doc_id "ocr"],
           Except.ok { s with error := some m })
      | Except.ok _ =>
          ([Effect.pdfRead s.doc_id, Effect.statusUpdate s.doc_id "ocr"],
           Except.ok { s with pdf_bytes := some pdfBytes })

def ocr_node (env : Env) (s : PipelineState) :
    List Effect × Except String PipelineState :=
  if hasError s then ([], Except.ok s)
  else
    match s.pdf_bytes with
    | none => ([], Except.error "KeyError: pdf_bytes")
    | some pdfBytes =>
        match extract_fields env s.doc_id pdfBytes with
        | (t, Except.error m) => (t, Except.ok { s with error := some m })
        | (t, Except.ok fields) =>
            match env.updateStatus s.doc_id "carbon" with
            | Except.error m =>
                (t ++ [Effect.statusUpdate s.doc_id "carbon"],
                 Except.ok { s with error := some m })
            | Except.ok _ =>
                (t ++ [Effect.statusUpdate s.doc_id "carbon"],
                 Except.ok { s with extracted_fields := some fields })

def carbon_node (env : Env) (s : PipelineState) :
    List Effect × Except String PipelineState :=
  if hasError s then ([], Except.ok s)
  else
    match s.extracted_fields with
    | none => ([], Except.error "KeyError: extracted_fields")
    | some extracted =>
        match calculate_carbon env s.doc_id extracted with
        | (t, Except.error m) => (t, Except.ok { s with error := some m })
        | (t, Except.ok result) =>
            match env.updateStatus s.doc_id "audit" with
            | Except.error m =>
                (t ++ [Effect.statusUpdate s.doc_id "audit"],
                 Except.ok { s with error := some m })
            | Except.ok _ =>
                (t ++ [Effect.statusUpdate s.doc_id "audit"],
                 Except.ok { s with carbon_result := some result })

def auditor_node (env : Env) (s : PipelineState) :
    List Effect × Except String PipelineState :=
  if hasError s then ([], Except.ok s)
  else
    match s.carbon_result with
    | none => ([], Except.error "KeyError: carbon_result")
    | some carbon =>
        match audit env s.doc_id carbon with
        | (t, Except.error m) => (t, Except.ok { s with error := some m })
        | (t, Except.ok report) =>
            match env.updateStatus s.doc_id "completed" with
            | Except.error m =>
                (t ++ [Effect.statusUpdate s.doc_id "completed"],
                 Except.ok { s with error := some m })
            | Except.ok _ =>
                (t ++ [Effect.statusUpdate s.doc_id "completed"],
                 Except.ok { s with audit_report := some report })

-- ── run_pipeline: fixed sequence router → ocr → carbon → auditor ─────

def run_pipeline (env : Env) (docId : String) :
    List Effect × Except String PipelineState :=
  match router_node env (initState docId) with
  | (t1, Except.error m) => (t1, Except.error m)
  | (t1, Except.ok s1) =>
      match ocr_node env s1 with
      | (t2, Except.error m) => (t1 ++ t2, Except.error m)
      | (t2, Except.ok s2) =>
          match carbon_node env s2 with
          | (t3, Except.error m) => (t1 ++ t2 ++ t3, Except.error m)
          | (t3, Except.ok s3) =>
              match auditor_node env s3 with
              | (t4, Except.error m) => (t1 ++ t2 ++ t3 ++ t4, Except.error m)
              | (t4, Except.ok s4) => (t1 ++ t2 ++ t3 ++ t4, Except.ok s4)

-- Persisted document status after a trace of effects (last update wins).
def statusStep (acc : Option String) (e : Effect) : Option String :=
  match e with
  | Effect.statusUpdate _ st => some st
  | _ => acc

def statusAfter (t : List Effect) : Option String :=
  t.foldl statusStep none

-- All failure messages an environment can raise are non-empty strings.
def NonEmptyMsgs (env : Env) : Prop :=
  (∀ d m, env.getPdf d = Except.error m → m ≠ "") ∧
  (∀ d st m, env.updateStatus d st = Except.error m → m ≠ "") ∧
  (∀ b m, env.renderPages b = Except.error m → m ≠ "") ∧
  (∀ i m, env.ocrInvoke i = Except.error m → m ≠ "") ∧
  (∀ d f m, env.saveExtracted d f = Except.error m → m ≠ "") ∧
  (∀ m, env.loadCarbonIndex = Except.error m → m ≠ "") ∧
  (∀ x i m, env.carbonInvoke x i = Except.error m → m ≠ "") ∧
  (∀ d r m, env.saveCarbon d r = Except.error m → m ≠ "") ∧
  (∀ c m, env.auditInvoke c = Except.error m → m ≠ "") ∧
  (∀ d r m, env.saveAudit d r = Except.error m → m ≠ "")

-- ── Concrete environments used to instantiate hypotheses ─────────────

def okEnv : Env :=
  { getPdf := fun _ => Except.ok ("f.pdf", [37, 80, 68, 70]),
    updateStatus := fun _ _ => Except.ok (),
    renderPages := fun _ => Except.ok ["img1"],
    ocrInvoke := fun _ => Except.ok "resp-ocr",
    parseJson := fun r => some [("supplier_name", JsonVal.str r)],
    saveExtracted := fun _ _ => Except.ok (),
    loadCarbonIndex := Except.ok [],
    carbonInvoke := fun _ _ => Except.ok "resp-carbon",
    saveCarbon := fun _ _ => Except.ok (),
    auditInvoke := fun _ => Except.ok "resp-audit",
    saveAudit := fun _ _ => Except.ok () }

-- Every call succeeds except the document read, which raises "boom".
def envFail : Env := { okEnv with getPdf := fun _ => Except.error "boom" }

-- The document read raises an exception whose message is the empty string
-- (Python: str(ValueError()) = "").
def emptyMsgEnv : Env := { okEnv with getPdf := fun _ => Except.error "" }

-- Inference responses are never parseable as JSON.
def badJsonEnv : Env := { okEnv with parseJson := fun _ => none }

-- The inference calls of stage 1 and stage 2 raise transport failures.
def agentFailEnv : Env :=
  { okEnv with ocrInvoke := fun _ => Except.error "llm down",
               carbonInvoke := fun _ _ => Except.error "quota exceeded" }

-- ── A concrete durable store, to state cross-run independence ────────
-- The store backs getPdf / updateStatus / the three insert targets; the
-- inference-side collaborators stay pure oracles.  Effects of a run are
-- replayed onto the store with applyTrace.

structure DocRow : Type where
  filename : String
  raw_pdf : List Nat
  status : String

structure DbWorld : Type where
  documents : List (String × DocRow)
  extracted_rows : List (String × JsonVal)
  carbon_rows : List (String × JsonVal)
  audit_rows : List (String × JsonVal)

structure LlmOracles : Type where
  renderPages : List Nat → Except String (List String)
  ocrInvoke : String → Except String String
  parseJson : String → Option Dict
  loadCarbonIndex : Except String Dict
  carbonInvoke : Dict → Dict → Except String String
  auditInvoke : Dict → Except String String

def docLookup : List (String × DocRow) → String → Option DocRow
  | [], _ => none
  | (k, r) :: rest, d => if k = d then some r else docLookup rest d

def worldGetPdf (w : DbWorld) (d : String) : Except String (String × List Nat) :=
  match docLookup w.documents d with
  | none => Except.error ("Document " ++ d ++ " not found.")
  | some row => Except.ok (row.filename, row.raw_pdf)

def llmEnv (L : LlmOracles) : Env :=
  { getPdf := fun d => Except.error ("Document " ++ d ++ " not found."),
    updateStatus := fun _ _ => Except.ok (),
    renderPages := L.renderPages,
    ocrInvoke := L.ocrInvoke,
    parseJson := L.parseJson,
    saveExtracted := fun _ _ => Except.ok (),
    loadCarbonIndex := L.loadCarbonIndex,
    carbonInvoke := L.carbonInvoke,
    saveCarbon := fun _ _ => Except.ok (),
    auditInvoke := L.auditInvoke,
    saveAudit := fun _ _ => Except.ok () }

def envOfWorld (w : DbWorld) (L : LlmOracles) : Env :=
  { llmEnv L with getPdf := worldGetPdf w }

def setStatus (rows : List (String × DocRow)) (d st : String) :
    List (String × DocRow) :=
  rows.map (fun kr => if kr.1 = d then (kr.1, { kr.2 with status := st }) else kr)

def applyEffect (w : DbWorld) (e : Effect) : DbWorld :=
  match e with
  | Effect.pdfRead _ => w
  | Effect.invoke _ => w
  | Effect.statusUpdate d st => { w with documents := setStatus w.documents d st }
  | Effect.dbWrite table d payload =>
      if table = "extracted_fields" then
        { w with extracted_rows := w.extracted_rows ++ [(d, payload)] }
      else if table = "carbon_results" then
        { w with carbon_rows := w.carbon_rows ++ [(d, payload)] }
      else if table = "audit_reports" then
        { w with audit_rows := w.audit_rows ++ [(d, payload)] }
      else w

def applyTrace (w : DbWorld) (t : List Effect) : DbWorld :=
  t.foldl applyEffect w

-- ── Concrete states and run results used by witnesses ────────────────

def errState : PipelineState :=
  { doc_id := "d", pdf_bytes := none, extracted_fields := none,
    carbon_result := none, audit_report := none, error := some "boom" }

def failState : PipelineState :=
  { doc_id := "doc-1", pdf_bytes := none, extracted_fields := none,
    carbon_result := none, audit_report := none, error := some "boom" }

def emptyErrState : PipelineState :=
  { doc_id := "doc-1", pdf_bytes := none, extracted_fields := none,
    carbon_result := none, audit_report := none, error := some "" }

def c4state : PipelineState :=
  { doc_id := "doc-1", pdf_bytes := some [37, 80, 68, 70], extracted_fields := some [],
    carbon_result := none, audit_report := none, error := none }

def c5state1 : PipelineState :=
  { doc_id := "d", pdf_bytes := some [1], extracted_fields := none,
    carbon_result := none, audit_report := none, error := none }

def c5state2 : PipelineState :=
  { doc_id := "d", pdf_bytes := some [1], extracted_fields := some [],
    carbon_result := none, audit_report := none, error := none }

def c6state : PipelineState :=
  { doc_id := "d", pdf_bytes := none, extracted_fields := none,
    carbon_result := none, audit_report := none, error := some "boom" }

def okTrace : List Effect :=
  [Effect.pdfRead "doc-1", Effect.statusUpdate "doc-1" "ocr",
   Effect.invoke "ocr",
   Effect.dbWrite "extracted_fields" "doc-1" (JsonVal.obj [("supplier_name", JsonVal.str "resp-ocr")]),
   Effect.statusUpdate "doc-1" "carbon",
   Effect.invoke "carbon",
   Effect.dbWrite "carbon_results" "doc-1" (JsonVal.obj [("supplier_name", JsonVal.str "resp-carbon")]),
   Effect.statusUpdate "doc-1" "audit",
   Effect.invoke "audit",
   Effect.dbWrite "audit_reports" "doc-1" (JsonVal.obj
     [("hotspots", JsonVal.arr []), ("recommendations", JsonVal.arr []),
      ("total_emissions", JsonVal.num 0), ("risk_level", JsonVal.str "unknown")]),
   Effect.statusUpdate "doc-1" "completed"]

def okFinal : PipelineState :=
  { doc_id := "doc-1", pdf_bytes := some [37, 80, 68, 70],
    extracted_fields := some [("supplier_name", JsonVal.str "resp-ocr")],
    carbon_result := some [("supplier_name", JsonVal.str "resp-carbon")],
    audit_report := some [("supplier_name", JsonVal.str "resp-audit")],
    error := none }

-- ── Basic lemmas about the error guard ───────────────────────────────

lemma hasError_none {s : PipelineState} (h : s.error = none) : hasError s = false := by
  simp [hasError, h]

lemma hasError_some_ne {s : PipelineState} {m : String} (h : s.error = some m)
    (hm : m ≠ "") : hasError s = true := by
  simp [hasError, h, bne_iff_ne, hm]

lemma error_of_hasError_false {s : PipelineState} (h : hasError s = false) :
    s.error = none ∨ s.error = some "" := by
  unfold hasError at h
  cases he : s.error with
  | none => exact Or.inl rfl
  | some e =>
      rw [he] at h
      simp [bne_iff_ne] at h
      exact Or.inr (by rw [h])

-- ── Shape lemmas for the router node ─────────────────────────────────

lemma router_step (env : Env) (s : PipelineState) :
    (∃ m, router_node env s = ([Effect.pdfRead s.doc_id], Except.ok { s with error := some m })
        ∧ env.getPdf s.doc_id = Except.error m)
  ∨ (∃ m fn b, router_node env s =
        ([Effect.pdfRead s.doc_id, Effect.statusUpdate s.doc_id "ocr"],
         Except.ok { s with error := some m })
        ∧ env.getPdf s.doc_id = Except.ok (fn, b)
        ∧ env.updateStatus s.doc_id "ocr" = Except.error m)
  ∨ (∃ fn b, router_node env s =
        ([Effect.pdfRead s.doc_id, Effect.statusUpdate s.doc_id "ocr"],
         Except.ok { s with pdf_bytes := some b })
        ∧ env.getPdf s.doc_id = Except.ok (fn, b)) := by
  cases h1 : env.getPdf s.doc_id with
  | error m =>
      exact Or.inl ⟨m, by simp [router_node, h1], rfl⟩
  | ok p =>
      obtain ⟨fn, b⟩ := p
      cases h2 : env.updateStatus s.doc_id "ocr" with
      | error m =>
          exact Or.inr (Or.inl ⟨m, fn, b, by simp [router_node, h1, h2], rfl, rfl⟩)
      | ok u =>
          cases u
          exact Or.inr (Or.inr ⟨fn, b, by simp [router_node, h1, h2], rfl⟩)

-- ── Shape lemmas for the three guarded stage nodes ───────────────────

lemma ocr_step (env : Env) (s : PipelineState) :
    (hasError s = true ∧ ocr_node env s = ([], Except.ok s))
  ∨ (hasError s = false ∧ s.pdf_bytes = none
        ∧ ocr_node env s = ([], Except.error "KeyError: pdf_bytes"))
  ∨ (hasError s = false ∧ ∃ b t m, s.pdf_bytes = some b
        ∧ ocr_node env s = (t, Except.ok { s with error := some m })
        ∧ ((extract_fields env s.doc_id b).2 = Except.error m
           ∨ env.updateStatus s.doc_id "carbon" = Except.error m))
  ∨ (hasError s = false ∧ ∃ b t f, s.pdf_bytes = some b
        ∧ ocr_node env s = (t, Except.ok { s with extracted_fields := some f })
        ∧ (extract_fields env s.doc_id b).2 = Except.ok f) := by
  by_cases he : hasError s
  · exact Or.inl ⟨he, by simp [ocr_node, he]⟩
  · simp only [Bool.not_eq_true] at he
    cases hb : s.pdf_bytes with
    | none => exact Or.inr (Or.inl ⟨he, rfl, by simp [ocr_node, he, hb]⟩)
    | some b =>
        rcases hef : extract_fields env s.doc_id b with ⟨t, r⟩
        cases r with
        | error m =>
            refine Or.inr (Or.inr (Or.inl ⟨he, b, t, m, rfl, ?_, Or.inl (by rw [hef])⟩))
            simp [ocr_node, he, hb, hef]
        | ok f =>
            cases hst : env.updateStatus s.doc_id "carbon" with
            | error m =>
                refine Or.inr (Or.inr (Or.inl ⟨he, b, t ++ [Effect.statusUpdate s.doc_id "carbon"],
                  m, rfl, ?_, Or.inr rfl⟩))
                simp [ocr_node, he, hb, hef, hst]
            | ok u =>
                cases u
                refine Or.inr (Or.inr (Or.inr ⟨he, b, t ++ [Effect.statusUpdate s.doc_id "carbon"],
                  f, rfl, ?_, by rw [hef]⟩))
                simp [ocr_node, he, hb, hef, hst]

lemma carbon_step (env : Env) (s : PipelineState) :
    (hasError s = true ∧ carbon_node env s = ([], Except.ok s))
  ∨ (hasError s = false ∧ s.extracted_fields = none
        ∧ carbon_node env s = ([], Except.error "KeyError: extracted_fields"))
  ∨ (hasError s = false ∧ ∃ x t m, s.extracted_fields = some x
        ∧ carbon_node env s = (t, Except.ok { s with error := some m })
        ∧ ((calculate_carbon env s.doc_id x).2 = Except.error m
           ∨ env.updateStatus s.doc_id "audit" = Except.error m))
  ∨ (hasError s = false ∧ ∃ x t c, s.extracted_fields = some x
        ∧ carbon_node env s = (t, Except.ok { s with carbon_result := some c })
        ∧ (calculate_carbon env s.doc_id x).2 = Except.ok c) := by
  by_cases he : hasError s
  · exact Or.inl ⟨he, by simp [carbon_node, he]⟩
  · simp only [Bool.not_eq_true] at he
    cases hb : s.extracted_fields with
    | none => exact Or.inr (Or.inl ⟨he, rfl, by simp [carbon_node, he, hb]⟩)
    | some x =>
        rcases hef : calculate_carbon env s.doc_id x with ⟨t, r⟩
        cases r with
        | error m =>
            refine Or.inr (Or.inr (Or.inl ⟨he, x, t, m, rfl, ?_, Or.inl (by rw [hef])⟩))
            simp [carbon_node, he, hb, hef]
        | ok c =>
            cases hst : env.updateStatus s.doc_id "audit" with
            | error m =>
                refine Or.inr (Or.inr (Or.inl ⟨he, x, t ++ [Effect.statusUpdate s.doc_id "audit"],
                  m, rfl, ?_, Or.inr rfl⟩))
                simp [carbon_node, he, hb, hef, hst]
            | ok u =>
                cases u
                refine Or.inr (Or.inr (Or.inr ⟨he, x, t ++ [Effect.statusUpdate s.doc_id "audit"],
                  c, rfl, ?_, by rw [hef]⟩))
                simp [carbon_node, he, hb, hef, hst]

lemma auditor_step (env : Env) (s : PipelineState) :
    (hasError s = true ∧ auditor_node env s = ([], Except.ok s))
  ∨ (hasError s = false ∧ s.carbon_result = none
        ∧ auditor_node env s = ([], Except.error "KeyError: carbon_result"))
  ∨ (hasError s = false ∧ ∃ c t m, s.carbon_result = some c
        ∧ auditor_node env s = (t, Except.ok { s with error := some m })
        ∧ ((audit env s.doc_id c).2 = Except.error m
           ∨ env.updateStatus s.doc_id "completed" = Except.error m))
  ∨ (hasError s = false ∧ ∃ c t rep, s.carbon_result = some c
        ∧ auditor_node env s = (t, Except.ok { s with audit_report := some rep })
        ∧ (audit env s.doc_id c).2 = Except.ok rep) := by
  by_cases he : hasError s
  · exact Or.inl ⟨he, by simp [auditor_node, he]⟩
  · simp only [Bool.not_eq_true] at he
    cases hb : s.carbon_result with
    | none => exact Or.inr (Or.inl ⟨he, rfl, by simp [auditor_node, he, hb]⟩)
    | some c =>
        rcases hef : audit env s.doc_id c with ⟨t, r⟩
        cases r with
        | error m =>
            refine Or.inr (Or.inr (Or.inl ⟨he, c, t, m, rfl, ?_, Or.inl (by rw [hef])⟩))
            simp [auditor_node, he, hb, hef]
        | ok rep =>
            cases hst : env.updateStatus s.doc_id "completed" with
            | error m =>
                refine Or.inr (Or.inr (Or.inl ⟨he, c, t ++ [Effect.statusUpdate s.doc_id "completed"],
                  m, rfl, ?_, Or.inr rfl⟩))
                simp [auditor_node, he, hb, hef, hst]
            | ok u =>
                cases u
                refine Or.inr (Or.inr (Or.inr ⟨he, c, t ++ [Effect.statusUpdate s.doc_id "completed"],
                  rep, rfl, ?_, by rw [hef]⟩))
                simp [auditor_node, he, hb, hef, hst]

-- ── Where can an agent failure message come from? ────────────────────

lemma ocrPages_err (env : Env) (imgs : List String) :
    ∀ acc m, (ocrPages env imgs acc).2 = Except.error m →
      ∃ img, env.ocrInvoke img = Except.error m := by
  induction imgs with
  | nil => intro acc m h; simp [ocrPages] at h
  | cons img rest ih =>
      intro acc m h
      cases hi : env.ocrInvoke img with
      | error m' =>
          simp only [ocrPages, hi] at h
          have hm : m' = m := by simpa using h
          exact ⟨img, hm ▸ hi⟩
      | ok resp =>
          simp only [ocrPages, hi] at h
          exact ih _ m h

lemma extract_fields_err (env : Env) (d : String) (b : List Nat) (m : String)
    (h : (extract_fields env d b).2 = Except.error m) :
    env.renderPages b = Except.error m
  ∨ (∃ img, env.ocrInvoke img = Except.error m)
  ∨ (∃ f, env.saveExtracted d f = Except.error m) := by
  cases hr : env.renderPages b with
  | error m' =>
      simp only [extract_fields, hr] at h
      have hm : m' = m := by simpa using h
      exact Or.inl (by rw [hm])
  | ok imgs =>
      rcases hp : ocrPages env imgs [] with ⟨t, r⟩
      cases r with
      | error m' =>
          simp only [extract_fields, hr, hp] at h
          exact Or.inr (Or.inl (ocrPages_err env imgs [] m (by rw [hp, ← h])))
      | ok fields =>
          cases hs : env.saveExtracted d fields with
          | error m' =>
              simp only [extract_fields, hr, hp, hs] at h
              have hm : m' = m := by simpa using h
              exact Or.inr (Or.inr ⟨fields, hm ▸ hs⟩)
          | ok u =>
              cases u
              simp [extract_fields, hr, hp, hs] at h

lemma calculate_carbon_err (env : Env) (d : String) (x : Dict) (m : String)
    (h : (calculate_carbon env d x).2 = Except.error m) :
    env.loadCarbonIndex = Except.error m
  ∨ (∃ i, env.carbonInvoke x i = Except.error m)
  ∨ (∃ r, env.saveCarbon d r = Except.error m) := by
  cases hl : env.loadCarbonIndex with
  | error m' =>
      simp only [calculate_carbon, hl] at h
      have hm : m' = m := by simpa using h
      exact Or.inl (by rw [hm])
  | ok idx =>
      cases hi : env.carbonInvoke x idx with
      | error m' =>
          simp only [calculate_carbon, hl, hi] at h
          have hm : m' = m := by simpa using h
          exact Or.inr (Or.inl ⟨idx, hm ▸ hi⟩)
      | ok resp =>
          cases hs : env.saveCarbon d
              (match env.parseJson resp with
               | some r => r
               | none => carbonFallback resp) with
          | error m' =>
              simp only [calculate_carbon, hl, hi] at h
              rw [hs] at h
              simp at h
              exact Or.inr (Or.inr ⟨_, by rw [hs, h]⟩)
          | ok u =>
              cases u
              simp only [calculate_carbon, hl, hi] at h
              rw [hs] at h
              simp at h

lemma audit_err (env : Env) (d : String) (c : Dict) (m : String)
    (h : (audit env d c).2 = Except.error m) :
    env.auditInvoke c = Except.error m
  ∨ (∃ r, env.saveAudit d r = Except.error m) := by
  cases hi : env.auditInvoke c with
  | error m' =>
      simp only [audit, hi] at h
      have hm : m' = m := by simpa using h
      exact Or.inl (by rw [hm])
  | ok resp =>
      cases hs : env.saveAudit d
          (match env.parseJson resp with
           | some r => r
           | none => auditFallback c resp) with
      | error m' =>
          simp only [audit, hi] at h
          rw [hs] at h
          simp at h
          exact Or.inr ⟨_, by rw [hs, h]⟩
      | ok u =>
          cases u
          simp only [audit, hi] at h
          rw [hs] at h
          simp at h

-- ── The agents never touch the document status ───────────────────────

lemma ocrPages_noStatus (env : Env) (imgs : List String) :
    ∀ acc d st, Effect.statusUpdate d st ∉ (ocrPages env imgs acc).1 := by
  induction imgs with
  | nil => intro acc d st; simp [ocrPages]
  | cons img rest ih =>
      intro acc d st
      cases hi : env.ocrInvoke img with
      | error m => simp [ocrPages, hi]
      | ok resp => simp [ocrPages, hi, ih]

lemma extract_fields_noStatus (env : Env) (d : String) (b : List Nat) :
    ∀ d' st, Effect.statusUpdate d' st ∉ (extract_fields env d b).1 := by
  intro d' st
  cases hr : env.renderPages b with
  | error m => simp [extract_fields, hr]
  | ok imgs =>
      rcases hp : ocrPages env imgs [] with ⟨t, r⟩
      have ht : Effect.statusUpdate d' st ∉ t := by
        have := ocrPages_noStatus env imgs [] d' st
        rw [hp] at this
        exact this
      cases r with
      | error m => simp only [extract_fields, hr, hp]; exact ht
      | ok fields =>
          cases hs : env.saveExtracted d fields with
          | error m => simp only [extract_fields, hr, hp, hs]; simp [ht]
          | ok u => cases u; simp only [extract_fields, hr, hp, hs]; simp [ht]

lemma calculate_carbon_noStatus (env : Env) (d : String) (x : Dict) :
    ∀ d' st, Effect.statusUpdate d' st ∉ (calculate_carbon env d x).1 := by
  intro d' st
  cases hl : env.loadCarbonIndex with
  | error m => simp [calculate_carbon, hl]
  | ok idx =>
      cases hi : env.carbonInvoke x idx with
      | error m => simp [calculate_carbon, hl, hi]
      | ok resp =>
          cases hs : env.saveCarbon d
              (match env.parseJson resp with
               | some r => r
               | none => carbonFallback resp) with
          | error m =>
              simp only [calculate_carbon, hl, hi]
              rw [hs]; simp
          | ok u =>
              cases u
              simp only [calculate_carbon, hl, hi]
              rw [hs]; simp

lemma audit_noStatus (env : Env) (d : String) (c : Dict) :
    ∀ d' st, Effect.statusUpdate d' st ∉ (audit env d c).1 := by
  intro d' st
  cases hi : env.auditInvoke c with
  | error m => simp [audit, hi]
  | ok resp =>
      cases hs : env.saveAudit d
          (match env.parseJson resp with
           | some r => r
           | none => auditFallback c resp) with
      | error m =>
          simp only [audit, hi]
          rw [hs]; simp
      | ok u =>
          cases u
          simp only [audit, hi]
          rw [hs]; simp

-- ── statusAfter over traces without status updates ───────────────────

lemma foldl_statusStep_const {t : List Effect}
    (h : ∀ d st, Effect.statusUpdate d st ∉ t) (acc : Option String) :
    List.foldl statusStep acc t = acc := by
  induction t generalizing acc with
  | nil => rfl
  | cons e rest ih =>
      have he : ∀ d st, Effect.statusUpdate d st ≠ e := by
        intro d st hc
        exact h d st (by rw [hc]; exact List.mem_cons_self e rest)
      have hrest : ∀ d st, Effect.statusUpdate d st ∉ rest := by
        intro d st hc
        exact h d st (List.mem_cons_of_mem e hc)
      rw [List.foldl_cons, ih hrest]
      cases e with
      | pdfRead d0 => rfl
      | invoke st0 => rfl
      | dbWrite tb d0 p => rfl
      | statusUpdate d0 st0 => exact absurd rfl (he d0 st0)

-- ── Destructuring a successful run into its four node applications ───

lemma run_pipeline_ok_steps (env : Env) (d : String) (t : List Effect)
    (s : PipelineState) (h : run_pipeline env d = (t, Except.ok s)) :
    ∃ t1 s1 t2 s2 t3 s3 t4,
      router_node env (initState d) = (t1, Except.ok s1)
      ∧ ocr_node env s1 = (t2, Except.ok s2)
      ∧ carbon_node env s2 = (t3, Except.ok s3)
      ∧ auditor_node env s3 = (t4, Except.ok s)
      ∧ t = t1 ++ t2 ++ t3 ++ t4 := by
  unfold run_pipeline at h
  rcases h1 : router_node env (initState d) with ⟨t1, r1⟩
  rw [h1] at h
  cases r1 with
  | error m => simp at h
  | ok s1 =>
      simp only [] at h
      rcases h2 : ocr_node env s1 with ⟨t2, r2⟩
      rw [h2] at h
      cases r2 with
      | error m => simp at h
      | ok s2 =>
          simp only [] at h
          rcases h3 : carbon_node env s2 with ⟨t3, r3⟩
          rw [h3] at h
          cases r3 with
          | error m => simp at h
          | ok s3 =>
              simp only [] at h
              rcases h4 : auditor_node env s3 with ⟨t4, r4⟩
              rw [h4] at h
              cases r4 with
              | error m => simp at h
              | ok s4 =>
                  simp only [Prod.mk.injEq, Except.ok.injEq] at h
                  obtain ⟨ht, hs⟩ := h
                  exact ⟨t1, s1, t2, s2, t3, s3, t4, rfl, h2, h3, hs ▸ h4, ht.symm⟩

-- ── Invariant chain for the terminal exactly-one property ────────────
-- The `m = "" → key = none` implications record that a sticky empty
-- error message can only coexist with a missing prerequisite key, in
-- which case the next node raises instead of terminating.

lemma router_C3 (env : Env) (d : String) (t : List Effect) (s' : PipelineState)
    (h : router_node env (initState d) = (t, Except.ok s')) :
    s'.extracted_fields = none ∧ s'.carbon_result = none ∧ s'.audit_report = none
    ∧ (s'.error = none ∨ ∃ m, s'.error = some m ∧ (m = "" → s'.pdf_bytes = none)) := by
  rcases router_step env (initState d) with
    ⟨m, hnode, hg⟩ | ⟨m, fn, b, hnode, hg, hu⟩ | ⟨fn, b, hnode, hg⟩ <;>
    rw [hnode] at h <;>
    have hs := (Except.ok.inj (congrArg Prod.snd h)) <;>
    subst hs
  · exact ⟨rfl, rfl, rfl, Or.inr ⟨m, rfl, fun _ => rfl⟩⟩
  · exact ⟨rfl, rfl, rfl, Or.inr ⟨m, rfl, fun _ => rfl⟩⟩
  · exact ⟨rfl, rfl, rfl, Or.inl rfl⟩

lemma ocr_C3 (env : Env) (s : PipelineState) (t : List Effect) (s' : PipelineState)
    (h : ocr_node env s = (t, Except.ok s'))
    (hx0 : s.extracted_fields = none) (hc0 : s.carbon_result = none)
    (ha0 : s.audit_report = none)
    (hinv : s.error = none ∨ ∃ m, s.error = some m ∧ (m = "" → s.pdf_bytes = none)) :
    s'.carbon_result = none ∧ s'.audit_report = none
    ∧ (s'.error = none ∨ ∃ m, s'.error = some m ∧ (m = "" → s'.extracted_fields = none)) := by
  rcases ocr_step env s with
    ⟨he, hnode⟩ | ⟨he, hpdf, hnode⟩ |
    ⟨he, b, tE, m, hpdf, hnode, hprov⟩ | ⟨he, b, tE, f, hpdf, hnode, hef⟩ <;>
    rw [hnode] at h
  · have hs := (Except.ok.inj (congrArg Prod.snd h))
    subst hs
    refine ⟨hc0, ha0, ?_⟩
    rcases hinv with hn | ⟨m, hm, _⟩
    · exact Or.inl hn
    · exact Or.inr ⟨m, hm, fun _ => hx0⟩
  · exact absurd (congrArg Prod.snd h) (by simp)
  · have hs := (Except.ok.inj (congrArg Prod.snd h))
    subst hs
    exact ⟨hc0, ha0, Or.inr ⟨m, rfl, fun _ => hx0⟩⟩
  · have hs := (Except.ok.inj (congrArg Prod.snd h))
    subst hs
    refine ⟨hc0, ha0, Or.inl ?_⟩
    rcases error_of_hasError_false he with hn | hsome
    · exact hn
    · rcases hinv with hn | ⟨m, hm, himp⟩
      · exact hn
      · rw [hm] at hsome
        have hm0 : m = "" := by simpa using hsome
        rw [himp hm0] at hpdf
        exact absurd hpdf (by simp)

lemma carbon_C3 (env : Env) (s : PipelineState) (t : List Effect) (s' : PipelineState)
    (h : carbon_node env s = (t, Except.ok s'))
    (hc0 : s.carbon_result = none) (ha0 : s.audit_report = none)
    (hinv : s.error = none ∨ ∃ m, s.error = some m ∧ (m = "" → s.extracted_fields = none)) :
    s'.audit_report = none
    ∧ (s'.error = none ∨ ∃ m, s'.error = some m ∧ (m = "" → s'.carbon_result = none)) := by
  rcases carbon_step env s with
    ⟨he, hnode⟩ | ⟨he, hx, hnode⟩ |
    ⟨he, x, tC, m, hx, hnode, hprov⟩ | ⟨he, x, tC, c, hx, hnode, hcc⟩ <;>
    rw [hnode] at h
  · have hs := (Except.ok.inj (congrArg Prod.snd h))
    subst hs
    refine ⟨ha0, ?_⟩
    rcases hinv with hn | ⟨m, hm, _⟩
    · exact Or.inl hn
    · exact Or.inr ⟨m, hm, fun _ => hc0⟩
  · exact absurd (congrArg Prod.snd h) (by simp)
  · have hs := (Except.ok.inj (congrArg Prod.snd h))
    subst hs
    exact ⟨ha0, Or.inr ⟨m, rfl, fun _ => hc0⟩⟩
  · have hs := (Except.ok.inj (congrArg Prod.snd h))
    subst hs
    refine ⟨ha0, Or.inl ?_⟩
    rcases error_of_hasError_false he with hn | hsome
    · exact hn
    · rcases hinv with hn | ⟨m, hm, himp⟩
      · exact hn
      · rw [hm] at hsome
        have hm0 : m = "" := by simpa using hsome
        rw [himp hm0] at hx
        exact absurd hx (by simp)

lemma auditor_C3 (env : Env) (s : PipelineState) (t : List Effect) (s' : PipelineState)
    (h : auditor_node env s = (t, Except.ok s'))
    (ha0 : s.audit_report = none)
    (hinv : s.error = none ∨ ∃ m, s.error = some m ∧ (m = "" → s.carbon_result = none)) :
    (s'.audit_report.isSome ∧ s'.error = none)
    ∨ (s'.audit_report = none ∧ s'.error.isSome) := by
  rcases auditor_step env s with
    ⟨he, hnode⟩ | ⟨he, hc, hnode⟩ |
    ⟨he, c, tA, m, hc, hnode, hprov⟩ | ⟨he, c, tA, rep, hc, hnode, hau⟩ <;>
    rw [hnode] at h
  · have hs := (Except.ok.inj (congrArg Prod.snd h))
    subst hs
    unfold hasError at he
    cases hsome : s.error with
    | none => rw [hsome] at he; simp at he
    | some e => exact Or.inr ⟨ha0, rfl⟩
  · exact absurd (congrArg Prod.snd h) (by simp)
  · have hs := (Except.ok.inj (congrArg Prod.snd h))
    subst hs
    exact Or.inr ⟨ha0, by simp⟩
  · have hs := (Except.ok.inj (congrArg Prod.snd h))
    subst hs
    refine Or.inl ⟨by simp, ?_⟩
    rcases error_of_hasError_false he with hn | hsome
    · exact hn
    · rcases hinv with hn | ⟨m, hm, himp⟩
      · exact hn
      · rw [hm] at hsome
        have hm0 : m = "" := by simpa using hsome
        rw [himp hm0] at hc
        exact absurd hc (by simp)

-- ── Node behaviour under non-empty failure messages ──────────────────

lemma router_nem (env : Env) (s : PipelineState) (hne : NonEmptyMsgs env)
    (he : s.error = none) :
    ∃ t s', router_node env s = (t, Except.ok s')
      ∧ s'.extracted_fields = s.extracted_fields
      ∧ s'.carbon_result = s.carbon_result
      ∧ s'.audit_report = s.audit_report
      ∧ ((s'.error = none ∧ ∃ b, s'.pdf_bytes = some b)
         ∨ (∃ m, m ≠ "" ∧ s'.error = some m)) := by
  obtain ⟨n1, n2, -⟩ := hne
  rcases router_step env s with
    ⟨m, hnode, hg⟩ | ⟨m, fn, b, hnode, hg, hu⟩ | ⟨fn, b, hnode, hg⟩
  · exact ⟨_, _, hnode, rfl, rfl, rfl, Or.inr ⟨m, n1 _ _ hg, rfl⟩⟩
  · exact ⟨_, _, hnode, rfl, rfl, rfl, Or.inr ⟨m, n2 _ _ _ hu, rfl⟩⟩
  · exact ⟨_, _, hnode, rfl, rfl, rfl, Or.inl ⟨he, b, rfl⟩⟩

lemma ocr_nem (env : Env) (s : PipelineState) (hne : NonEmptyMsgs env)
    (hinv : (s.error = none ∧ ∃ b, s.pdf_bytes = some b)
            ∨ (∃ m, m ≠ "" ∧ s.error = some m)) :
    ∃ t s', ocr_node env s = (t, Except.ok s')
      ∧ s'.pdf_bytes = s.pdf_bytes
      ∧ s'.carbon_result = s.carbon_result
      ∧ s'.audit_report = s.audit_report
      ∧ ((s'.error = none ∧ ∃ f, s'.extracted_fields = some f)
         ∨ (∃ m, m ≠ "" ∧ s'.error = some m)) := by
  obtain ⟨n1, n2, n3, n4, n5, -⟩ := hne
  rcases hinv with ⟨he, b, hb⟩ | ⟨m, hm, he⟩
  · rcases ocr_step env s with
      ⟨hg, hnode⟩ | ⟨hg, hpdf, hnode⟩ |
      ⟨hg, b', tE, m, hpdf, hnode, hprov⟩ | ⟨hg, b', tE, f, hpdf, hnode, hef⟩
    · rw [hasError_none he] at hg; exact absurd hg (by simp)
    · rw [hb] at hpdf; exact absurd hpdf (by simp)
    · refine ⟨_, _, hnode, rfl, rfl, rfl, Or.inr ⟨m, ?_, rfl⟩⟩
      rcases hprov with hef | hst
      · rcases extract_fields_err env s.doc_id b' m hef with hr | ⟨img, hi⟩ | ⟨f, hs⟩
        · exact n3 _ _ hr
        · exact n4 _ _ hi
        · exact n5 _ _ _ hs
      · exact n2 _ _ _ hst
    · exact ⟨_, _, hnode, rfl, rfl, rfl, Or.inl ⟨he, f, rfl⟩⟩
  · have hg : hasError s = true := hasError_some_ne he hm
    exact ⟨[], s, by simp [ocr_node, hg], rfl, rfl, rfl, Or.inr ⟨m, hm, he⟩⟩

lemma carbon_nem (env : Env) (s : PipelineState) (hne : NonEmptyMsgs env)
    (hinv : (s.error = none ∧ ∃ f, s.extracted_fields = some f)
            ∨ (∃ m, m ≠ "" ∧ s.error = some m)) :
    ∃ t s', carbon_node env s = (t, Except.ok s')
      ∧ s'.pdf_bytes = s.pdf_bytes
      ∧ s'.extracted_fields = s.extracted_fields
      ∧ s'.audit_report = s.audit_report
      ∧ ((s'.error = none ∧ ∃ c, s'.carbon_result = some c)
         ∨ (∃ m, m ≠ "" ∧ s'.error = some m)) := by
  obtain ⟨n1, n2, n3, n4, n5, n6, n7, n8, -⟩ := hne
  rcases hinv with ⟨he, f, hf⟩ | ⟨m, hm, he⟩
  · rcases carbon_step env s with
      ⟨hg, hnode⟩ | ⟨hg, hx, hnode⟩ |
      ⟨hg, x, tC, m, hx, hnode, hprov⟩ | ⟨hg, x, tC, c, hx, hnode, hcc⟩
    · rw [hasError_none he] at hg; exact absurd hg (by simp)
    · rw [hf] at hx; exact absurd hx (by simp)
    · refine ⟨_, _, hnode, rfl, rfl, rfl, Or.inr ⟨m, ?_, rfl⟩⟩
      rcases hprov with hcc | hst
      · rcases calculate_carbon_err env s.doc_id x m hcc with hl | ⟨i, hi⟩ | ⟨r, hs⟩
        · exact n6 _ hl
        · exact n7 _ _ _ hi
        · exact n8 _ _ _ hs
      · exact n2 _ _ _ hst
    · exact ⟨_, _, hnode, rfl, rfl, rfl, Or.inl ⟨he, c, rfl⟩⟩
  · have hg : hasError s = true := hasError_some_ne he hm
    exact ⟨[], s, by simp [carbon_node, hg], rfl, rfl, rfl, Or.inr ⟨m, hm, he⟩⟩

lemma auditor_nem (env : Env) (s : PipelineState) (hne : NonEmptyMsgs env)
    (hinv : (s.error = none ∧ ∃ c, s.carbon_result = some c)
            ∨ (∃ m, m ≠ "" ∧ s.error = some m)) :
    ∃ t s', auditor_node env s = (t, Except.ok s')
      ∧ ((s'.error = none ∧ ∃ rep, s'.audit_report = some rep)
         ∨ (∃ m, m ≠ "" ∧ s'.error = some m ∧ s'.audit_report = s.audit_report)) := by
  obtain ⟨n1, n2, n3, n4, n5, n6, n7, n8, n9, n10⟩ := hne
  rcases hinv with ⟨he, c, hc⟩ | ⟨m, hm, he⟩
  · rcases auditor_step env s with
      ⟨hg, hnode⟩ | ⟨hg, hx, hnode⟩ |
      ⟨hg, c', tA, m, hx, hnode, hprov⟩ | ⟨hg, c', tA, rep, hx, hnode, hau⟩
    · rw [hasError_none he] at hg; exact absurd hg (by simp)
    · rw [hc] at hx; exact absurd hx (by simp)
    · refine ⟨_, _, hnode, Or.inr ⟨m, ?_, rfl, rfl⟩⟩
      rcases hprov with hau | hst
      · rcases audit_err env s.doc_id c' m hau with ⟨hi⟩ | ⟨r, hs⟩
        · exact n9 _ _ hi
        · exact n10 _ _ _ hs
      · exact n2 _ _ _ hst
    · exact ⟨_, _, hnode, Or.inl ⟨he, rep, rfl⟩⟩
  · have hg : hasError s = true := hasError_some_ne he hm
    exact ⟨[], s, by simp [auditor_node, hg], Or.inr ⟨m, hm, he, rfl⟩⟩

-- ── Totality of the run under non-empty messages ─────────────────────

lemma run_nem (env : Env) (d : String) (hne : NonEmptyMsgs env) :
    ∃ t s, run_pipeline env d = (t, Except.ok s)
      ∧ ((s.error = none ∧ ∃ rep, s.audit_report = some rep)
         ∨ (∃ m, m ≠ "" ∧ s.error = some m ∧ s.audit_report = none)) := by
  obtain ⟨t1, s1, h1, hx1, hc1, ha1, hi1⟩ := router_nem env (initState d) hne rfl
  obtain ⟨t2, s2, h2, hp2, hc2, ha2, hi2⟩ := ocr_nem env s1 hne (by
    rcases hi1 with ⟨he, b, hb⟩ | herr
    · exact Or.inl ⟨he, b, hb⟩
    · exact Or.inr herr)
  obtain ⟨t3, s3, h3, hp3, hx3, ha3, hi3⟩ := carbon_nem env s2 hne (by
    rcases hi2 with ⟨he, f, hf⟩ | herr
    · exact Or.inl ⟨he, f, hf⟩
    · exact Or.inr herr)
  obtain ⟨t4, s4, h4, hi4⟩ := auditor_nem env s3 hne (by
    rcases hi3 with ⟨he, c, hc⟩ | herr
    · exact Or.inl ⟨he, c, hc⟩
    · exact Or.inr herr)
  refine ⟨t1 ++ t2 ++ t3 ++ t4, s4, ?_, ?_⟩
  · simp only [run_pipeline, h1, h2, h3, h4]
  · rcases hi4 with ⟨he, rep, hrep⟩ | ⟨m, hm, he, haud⟩
    · exact Or.inl ⟨he, rep, hrep⟩
    · refine Or.inr ⟨m, hm, he, ?_⟩
      rw [haud, ha3, ha2, ha1]
      rfl

-- ── Nodes never change pdf_bytes once set ────────────────────────────

lemma ocr_preserves_pdf (env : Env) (s : PipelineState) (t : List Effect)
    (s' : PipelineState) (h : ocr_node env s = (t, Except.ok s')) :
    s'.pdf_bytes = s.pdf_bytes := by
  rcases ocr_step env s with
    ⟨_, hnode⟩ | ⟨_, _, hnode⟩ | ⟨_, b, tE, m, _, hnode, _⟩ | ⟨_, b, tE, f, _, hnode, _⟩ <;>
    rw [hnode] at h
  · rw [← Except.ok.inj (congrArg Prod.snd h)]
  · exact absurd (congrArg Prod.snd h) (by simp)
  · rw [← Except.ok.inj (congrArg Prod.snd h)]
  · rw [← Except.ok.inj (congrArg Prod.snd h)]

lemma carbon_preserves_pdf (env : Env) (s : PipelineState) (t : List Effect)
    (s' : PipelineState) (h : carbon_node env s = (t, Except.ok s')) :
    s'.pdf_bytes = s.pdf_bytes := by
  rcases carbon_step env s with
    ⟨_, hnode⟩ | ⟨_, _, hnode⟩ | ⟨_, x, tC, m, _, hnode, _⟩ | ⟨_, x, tC, c, _, hnode, _⟩ <;>
    rw [hnode] at h
  · rw [← Except.ok.inj (congrArg Prod.snd h)]
  · exact absurd (congrArg Prod.snd h) (by simp)
  · rw [← Except.ok.inj (congrArg Prod.snd h)]
  · rw [← Except.ok.inj (congrArg Prod.snd h)]

lemma auditor_preserves_pdf (env : Env) (s : PipelineState) (t : List Effect)
    (s' : PipelineState) (h : auditor_node env s = (t, Except.ok s')) :
    s'.pdf_bytes = s.pdf_bytes := by
  rcases auditor_step env s with
    ⟨_, hnode⟩ | ⟨_, _, hnode⟩ | ⟨_, c, tA, m, _, hnode, _⟩ | ⟨_, c, tA, rep, _, hnode, _⟩ <;>
    rw [hnode] at h
  · rw [← Except.ok.inj (congrArg Prod.snd h)]
  · exact absurd (congrArg Prod.snd h) (by simp)
  · rw [← Except.ok.inj (congrArg Prod.snd h)]
  · rw [← Except.ok.inj (congrArg Prod.snd h)]

-- Status updates and row inserts never change filename or raw bytes.

lemma docLookup_setStatus (rows : List (String × DocRow)) (d' st d : String) :
    (docLookup (setStatus rows d' st) d).map (fun r => (r.filename, r.raw_pdf))
      = (docLookup rows d).map (fun r => (r.filename, r.raw_pdf)) := by
  induction rows with
  | nil => rfl
  | cons kr rest ih =>
      obtain ⟨k, r⟩ := kr
      by_cases h1 : k = d'
      · have hset : setStatus ((k, r) :: rest) d' st
            = (k, { r with status := st }) :: setStatus rest d' st := by
          simp [setStatus, h1]
        rw [hset]
        by_cases h2 : k = d
        · simp [docLookup, h2]
        · simp only [docLookup, if_neg h2]
          exact ih
      · have hset : setStatus ((k, r) :: rest) d' st = (k, r) :: setStatus rest d' st := by
          simp [setStatus, h1]
        rw [hset]
        by_cases h2 : k = d
        · simp [docLookup, h2]
        · simp only [docLookup, if_neg h2]
          exact ih

lemma worldGetPdf_documents_eq (w1 w2 : DbWorld) (d : String)
    (h : w1.documents = w2.documents) : worldGetPdf w1 d = worldGetPdf w2 d := by
  unfold worldGetPdf
  rw [h]

lemma worldGetPdf_applyEffect (w : DbWorld) (e : Effect) (d : String) :
    worldGetPdf (applyEffect w e) d = worldGetPdf w d := by
  cases e with
  | pdfRead d0 => rfl
  | invoke st0 => rfl
  | statusUpdate d0 st0 =>
      unfold worldGetPdf applyEffect
      have hmap := docLookup_setStatus w.documents d0 st0 d
      cases hA : docLookup (setStatus w.documents d0 st0) d with
      | none =>
          cases hB : docLookup w.documents d with
          | none => rfl
          | some r => rw [hA, hB] at hmap; simp at hmap
      | some r1 =>
          cases hB : docLookup w.documents d with
          | none => rw [hA, hB] at hmap; simp at hmap
          | some r2 =>
              rw [hA, hB] at hmap
              simp only [Option.map_some', Option.some.injEq, Prod.mk.injEq] at hmap
              show Except.ok (r1.filename, r1.raw_pdf) = Except.ok (r2.filename, r2.raw_pdf)
              rw [hmap.1, hmap.2]
  | dbWrite tb d0 p =>
      refine worldGetPdf_documents_eq _ _ d ?_
      simp only [applyEffect]
      split
      · rfl
      · split
        · rfl
        · split
          · rfl
          · rfl

lemma worldGetPdf_applyTrace (t : List Effect) (w : DbWorld) (d : String) :
    worldGetPdf (applyTrace w t) d = worldGetPdf w d := by
  induction t generalizing w with
  | nil => rfl
  | cons e rest ih =>
      show worldGetPdf (applyTrace (applyEffect w e) rest) d = worldGetPdf w d
      rw [ih (applyEffect w e), worldGetPdf_applyEffect]

-- ── The stage nodes do not depend on the getPdf collaborator ─────────

lemma ocrPages_getPdf_irrel (E : Env)
    (g : String → Except String (String × List Nat)) (imgs : List String) :
    ∀ acc, ocrPages { E with getPdf := g } imgs acc = ocrPages E imgs acc := by
  induction imgs with
  | nil => intro acc; rfl
  | cons img rest ih =>
      intro acc
      cases hi : E.ocrInvoke img with
      | error m => simp [ocrPages, hi]
      | ok resp => simp [ocrPages, hi, ih]

lemma extract_fields_getPdf_irrel (E : Env)
    (g : String → Except String (String × List Nat)) (d : String) (b : List Nat) :
    extract_fields { E with getPdf := g } d b = extract_fields E d b := by
  cases hr : E.renderPages b with
  | error m => simp [extract_fields, hr]
  | ok imgs => simp [extract_fields, hr, ocrPages_getPdf_irrel]

lemma calculate_carbon_getPdf_irrel (E : Env)
    (g : String → Except String (String × List Nat)) (d : String) (x : Dict) :
    calculate_carbon { E with getPdf := g } d x = calculate_carbon E d x := rfl

lemma audit_getPdf_irrel (E : Env)
    (g : String → Except String (String × List Nat)) (d : String) (c : Dict) :
    audit { E with getPdf := g } d c = audit E d c := rfl

lemma ocr_node_getPdf_irrel (E : Env)
    (g : String → Except String (String × List Nat)) (s : PipelineState) :
    ocr_node { E with getPdf := g } s = ocr_node E s := by
  simp only [ocr_node, extract_fields_getPdf_irrel]

lemma carbon_node_getPdf_irrel (E : Env)
    (g : String → Except String (String × List Nat)) (s : PipelineState) :
    carbon_node { E with getPdf := g } s = carbon_node E s := rfl

lemma auditor_node_getPdf_irrel (E : Env)
    (g : String → Except String (String × List Nat)) (s : PipelineState) :
    auditor_node { E with getPdf := g } s = auditor_node E s := rfl

lemma router_node_getPdf_congr (E : Env)
    (g g' : String → Except String (String × List Nat)) (s : PipelineState)
    (h : g s.doc_id = g' s.doc_id) :
    router_node { E with getPdf := g } s = router_node { E with getPdf := g' } s := by
  have e1 : ({ E with getPdf := g } : Env).getPdf = g := rfl
  have e2 : ({ E with getPdf := g' } : Env).getPdf = g' := rfl
  simp only [router_node, e1, e2, h]

lemma run_pipeline_getPdf_congr (E : Env)
    (g g' : String → Except String (String × List Nat)) (d : String)
    (h : g d = g' d) :
    run_pipeline { E with getPdf := g } d = run_pipeline { E with getPdf := g' } d := by
  have hro : router_node { E with getPdf := g } (initState d)
      = router_node { E with getPdf := g' } (initState d) :=
    router_node_getPdf_congr E g g' (initState d) h
  have ho : ∀ s, ocr_node { E with getPdf := g } s = ocr_node { E with getPdf := g' } s :=
    fun s => (ocr_node_getPdf_irrel E g s).trans (ocr_node_getPdf_irrel E g' s).symm
  have hc : ∀ s, carbon_node { E with getPdf := g } s = carbon_node { E with getPdf := g' } s :=
    fun s => (carbon_node_getPdf_irrel E g s).trans (carbon_node_getPdf_irrel E g' s).symm
  have ha : ∀ s, auditor_node { E with getPdf := g } s = auditor_node { E with getPdf := g' } s :=
    fun s => (auditor_node_getPdf_irrel E g s).trans (auditor_node_getPdf_irrel E g' s).symm
  simp only [run_pipeline, hro, ho, hc, ha]

-- ── NonEmptyMsgs holds for the concrete environments ─────────────────

lemma nem_okEnv : NonEmptyMsgs okEnv := by
  refine ⟨?_, ?_, ?_, ?_, ?_, ?_, ?_, ?_, ?_, ?_⟩ <;>
    intros <;> simp_all [okEnv]

lemma nem_envFail : NonEmptyMsgs envFail := by
  refine ⟨fun d m h => ?_, fun d st m h => ?_, fun b m h => ?_, fun i m h => ?_,
    fun d f m h => ?_, fun m h => ?_, fun x i m h => ?_, fun d r m h => ?_,
    fun c m h => ?_, fun d r m h => ?_⟩
  · simp [envFail, okEnv] at h
    exact h ▸ (by decide)
  · simp [envFail, okEnv] at h
  · simp [envFail, okEnv] at h
  · simp [envFail, okEnv] at h
  · simp [envFail, okEnv] at h
  · simp [envFail, okEnv] at h
  · simp [envFail, okEnv] at h
  · simp [envFail, okEnv] at h
  · simp [envFail, okEnv] at h
  · simp [envFail, okEnv] at h

lemma nem_agentFailEnv : NonEmptyMsgs agentFailEnv := by
  refine ⟨fun d m h => ?_, fun d st m h => ?_, fun b m h => ?_, fun i m h => ?_,
    fun d f m h => ?_, fun m h => ?_, fun x i m h => ?_, fun d r m h => ?_,
    fun c m h => ?_, fun d r m h => ?_⟩
  · simp [agentFailEnv, okEnv] at h
  · simp [agentFailEnv, okEnv] at h
  · simp [agentFailEnv, okEnv] at h
  · simp [agentFailEnv, okEnv] at h
    exact h ▸ (by decide)
  · simp [agentFailEnv, okEnv] at h
  · simp [agentFailEnv, okEnv] at h
  · simp [agentFailEnv, okEnv] at h
    exact h ▸ (by decide)
  · simp [agentFailEnv, okEnv] at h
  · simp [agentFailEnv, okEnv] at h
  · simp [agentFailEnv, okEnv] at h

-- ── Claim theorems ───────────────────────────────────────────────────

/-- C1 counterexample: the claim that run_pipeline never raises is false as
stated.  When the document read raises an exception whose message is the
empty string (Python: str(ValueError()) = ""), the router records
error = "", the truthiness guard of the OCR node does not fire, and its
unguarded state["pdf_bytes"] read raises a KeyError that propagates out of
run_pipeline instead of being captured in the final state. -/
theorem c1_counterexample :
    (run_pipeline emptyMsgEnv "doc-1").2 = Except.error "KeyError: pdf_bytes"
    ∧ ∀ s, (run_pipeline emptyMsgEnv "doc-1").2 ≠ Except.ok s := by
  refine ⟨rfl, fun s h => ?_⟩
  have heq : (Except.error "KeyError: pdf_bytes" : Except String PipelineState)
      = Except.ok s :=
    ((rfl : (run_pipeline emptyMsgEnv "doc-1").2
        = Except.error "KeyError: pdf_bytes").symm.trans h)
  exact absurd heq (by simp)

/-- C1 (amended): for every document id, run_pipeline returns a final
pipeline state and never raises, provided that every failure a collaborator
raises carries a non-empty message; any such stage failure is captured as a
string in the error field of the final state rather than propagated to the
caller. -/
theorem c1_run_pipeline_total (env : Env) (d : String) (hne : NonEmptyMsgs env) :
    ∃ t s, run_pipeline env d = (t, Except.ok s) := by
  obtain ⟨t, s, h, -⟩ := run_nem env d hne
  exact ⟨t, s, h⟩

/-- Witness for C1: the amended totality theorem applied to a concrete
environment whose only failure message is "boom". -/
theorem c1_witness : ∃ t s, run_pipeline envFail "doc-1" = (t, Except.ok s) :=
  c1_run_pipeline_total envFail "doc-1" nem_envFail

/-- C2: for every pipeline state whose error field is non-empty, each of
ocr_node, carbon_node and auditor_node returns its input state unchanged
and attempts no external effect at all (no inference invocation, no
persistence write, no status update). -/
theorem c2_sticky_error_passthrough (env : Env) (s : PipelineState)
    (h : hasError s = true) :
    ocr_node env s = ([], Except.ok s)
    ∧ carbon_node env s = ([], Except.ok s)
    ∧ auditor_node env s = ([], Except.ok s) := by
  refine ⟨?_, ?_, ?_⟩ <;> simp [ocr_node, carbon_node, auditor_node, h]

/-- Witness for C2 at a concrete errored state and environment. -/
theorem c2_witness :
    hasError errState = true
    ∧ (ocr_node okEnv errState = ([], Except.ok errState)
       ∧ carbon_node okEnv errState = ([], Except.ok errState)
       ∧ auditor_node okEnv errState = ([], Except.ok errState)) :=
  ⟨rfl, c2_sticky_error_passthrough okEnv errState rfl⟩

/-- C3: whenever run_pipeline terminates with a final state, exactly one of
the audit_report field and the error field is populated — never both,
never neither. -/
theorem c3_exactly_one_of_report_or_error (env : Env) (d : String)
    (t : List Effect) (s : PipelineState)
    (h : run_pipeline env d = (t, Except.ok s)) :
    (s.audit_report.isSome ∧ s.error = none)
    ∨ (s.audit_report = none ∧ s.error.isSome) := by
  obtain ⟨t1, s1, t2, s2, t3, s3, t4, h1, h2, h3, h4, -⟩ :=
    run_pipeline_ok_steps env d t s h
  obtain ⟨hx1, hc1, ha1, hi1⟩ := router_C3 env d t1 s1 h1
  obtain ⟨hc2, ha2, hi2⟩ := ocr_C3 env s1 t2 s2 h2 hx1 hc1 ha1 hi1
  obtain ⟨ha3, hi3⟩ := carbon_C3 env s2 t3 s3 h3 hc2 ha2 hi2
  exact auditor_C3 env s3 t4 s h4 ha3 hi3

/-- Witness for C3 at a concrete failing run. -/
theorem c3_witness :
    run_pipeline envFail "doc-1" = ([Effect.pdfRead "doc-1"], Except.ok failState)
    ∧ ((failState.audit_report.isSome ∧ failState.error = none)
       ∨ (failState.audit_report = none ∧ failState.error.isSome)) :=
  ⟨rfl, c3_exactly_one_of_report_or_error envFail "doc-1"
    [Effect.pdfRead "doc-1"] failState rfl⟩

/-- C6 counterexample: the router node does not obey the stage-node
short-circuit contract.  On a state whose error is already set ("boom"),
it still performs the raw-input read and the status update (its effect
trace is non-empty) and returns a changed state (pdf_bytes added), so it
does not return the state unchanged with no effects. -/
theorem c6_counterexample :
    router_node okEnv c6state
      = ([Effect.pdfRead "d", Effect.statusUpdate "d" "ocr"],
         Except.ok { c6state with pdf_bytes := some [37, 80, 68, 70] })
    ∧ router_node okEnv c6state ≠ ([], Except.ok c6state) := by
  refine ⟨rfl, fun h => ?_⟩
  have heq : (([Effect.pdfRead "d", Effect.statusUpdate "d" "ocr"] : List Effect),
      Except.ok { c6state with pdf_bytes := some [37, 80, 68, 70] })
      = (([] : List Effect), Except.ok c6state) :=
    ((rfl : router_node okEnv c6state = _).symm.trans h)
  simp at heq

/-- C6 (amended): the router node has no error guard at all — for every
input state, whether or not error is set, it attempts the raw-input read
(the first effect in its trace is the document read). -/
theorem c6_router_always_reads (env : Env) (s : PipelineState) :
    ∃ t r, router_node env s = (Effect.pdfRead s.doc_id :: t, r) := by
  rcases router_step env s with
    ⟨m, hnode, -⟩ | ⟨m, fn, b, hnode, -, -⟩ | ⟨fn, b, hnode, -⟩
  · exact ⟨[], _, hnode⟩
  · exact ⟨[Effect.statusUpdate s.doc_id "ocr"], _, hnode⟩
  · exact ⟨[Effect.statusUpdate s.doc_id "ocr"], _, hnode⟩

/-- C7 counterexample: the missing-prerequisite branch is reachable.  With
an empty failure message from the document read, the output state of the router
passes the error guard of the OCR node (hasError = false) while pdf_bytes is
absent, and the unguarded read fails with a KeyError that escapes
run_pipeline. -/
theorem c7_counterexample :
    router_node emptyMsgEnv (initState "doc-1")
      = ([Effect.pdfRead "doc-1"], Except.ok emptyErrState)
    ∧ hasError emptyErrState = false
    ∧ emptyErrState.pdf_bytes = none
    ∧ (ocr_node emptyMsgEnv emptyErrState).2 = Except.error "KeyError: pdf_bytes"
    ∧ (run_pipeline emptyMsgEnv "doc-1").2 = Except.error "KeyError: pdf_bytes" :=
  ⟨rfl, rfl, rfl, rfl, rfl⟩

/-- C7 (amended): under the fixed sequencing of run_pipeline, and provided all
collaborator failure messages are non-empty, whenever a downstream node
has its error guard pass, the preceding node has populated the key that node
reads, so the unguarded reads never fail. -/
theorem c7_guard_pass_implies_key (env : Env) (d : String) (hne : NonEmptyMsgs env)
    (t1 t2 t3 : List Effect) (s1 s2 s3 : PipelineState)
    (h1 : router_node env (initState d) = (t1, Except.ok s1))
    (h2 : ocr_node env s1 = (t2, Except.ok s2))
    (h3 : carbon_node env s2 = (t3, Except.ok s3)) :
    (hasError s1 = false → ∃ b, s1.pdf_bytes = some b)
    ∧ (hasError s2 = false → ∃ f, s2.extracted_fields = some f)
    ∧ (hasError s3 = false → ∃ c, s3.carbon_result = some c) := by
  obtain ⟨t1', s1', h1', -, -, -, hi1⟩ := router_nem env (initState d) hne rfl
  have e1 := h1.symm.trans h1'
  injection e1 with e1t e1s
  injection e1s with e1s
  subst e1s
  obtain ⟨t2', s2', h2', -, -, -, hi2⟩ := ocr_nem env s1 hne hi1
  have e2 := h2.symm.trans h2'
  injection e2 with e2t e2s
  injection e2s with e2s
  subst e2s
  obtain ⟨t3', s3', h3', -, -, -, hi3⟩ := carbon_nem env s2 hne hi2
  have e3 := h3.symm.trans h3'
  injection e3 with e3t e3s
  injection e3s with e3s
  subst e3s
  refine ⟨fun hf => ?_, fun hf => ?_, fun hf => ?_⟩
  · rcases hi1 with ⟨-, b, hb⟩ | ⟨m, hm, he⟩
    · exact ⟨b, hb⟩
    · exact absurd (hasError_some_ne he hm) (by rw [hf]; simp)
  · rcases hi2 with ⟨-, f, hfx⟩ | ⟨m, hm, he⟩
    · exact ⟨f, hfx⟩
    · exact absurd (hasError_some_ne he hm) (by rw [hf]; simp)
  · rcases hi3 with ⟨-, c, hc⟩ | ⟨m, hm, he⟩
    · exact ⟨c, hc⟩
    · exact absurd (hasError_some_ne he hm) (by rw [hf]; simp)

/-- Witness for C7 with a concrete failing-but-nonempty-message run. -/
theorem c7_witness :
    (hasError failState = false → ∃ b, failState.pdf_bytes = some b)
    ∧ (hasError failState = false → ∃ f, failState.extracted_fields = some f)
    ∧ (hasError failState = false → ∃ c, failState.carbon_result = some c) :=
  c7_guard_pass_implies_key envFail "doc-1" nem_envFail
    [Effect.pdfRead "doc-1"] [] [] failState failState failState rfl rfl rfl

/-- C8: running the pipeline twice for the same document id against the
same backing store and the same inference oracles yields identical final
results; the writes performed by the first run (status updates, inserted
rows) do not change what the second run reads, and each run starts from a
fresh initial state built from the document id alone. -/
theorem c8_two_runs_identical (w : DbWorld) (L : LlmOracles) (d : String) :
    run_pipeline (envOfWorld (applyTrace w (run_pipeline (envOfWorld w L) d).1) L) d
      = run_pipeline (envOfWorld w L) d := by
  show run_pipeline { llmEnv L with
      getPdf := worldGetPdf (applyTrace w (run_pipeline (envOfWorld w L) d).1) } d
    = run_pipeline { llmEnv L with getPdf := worldGetPdf w } d
  exact run_pipeline_getPdf_congr (llmEnv L) _ _ d
    (worldGetPdf_applyTrace (run_pipeline (envOfWorld w L) d).1 w d)

/-- C10: on every run in which the router succeeds (the document read and
the first status update both succeed), the final state returned by
run_pipeline carries the complete raw PDF payload under pdf_bytes. -/
theorem c10_final_state_contains_pdf (env : Env) (d fn : String) (b : List Nat)
    (t : List Effect) (s : PipelineState)
    (hg : env.getPdf d = Except.ok (fn, b))
    (hu : env.updateStatus d "ocr" = Except.ok ())
    (h : run_pipeline env d = (t, Except.ok s)) :
    s.pdf_bytes = some b := by
  obtain ⟨t1, s1, t2, s2, t3, s3, t4, h1, h2, h3, h4, -⟩ :=
    run_pipeline_ok_steps env d t s h
  have hr : router_node env (initState d)
      = ([Effect.pdfRead d, Effect.statusUpdate d "ocr"],
         Except.ok { initState d with pdf_bytes := some b }) := by
    simp [router_node, initState, hg, hu]
  rw [hr] at h1
  injection h1 with h1t h1s
  injection h1s with h1s
  calc s.pdf_bytes = s3.pdf_bytes := auditor_preserves_pdf env s3 t4 s h4
    _ = s2.pdf_bytes := carbon_preserves_pdf env s2 t3 s3 h3
    _ = s1.pdf_bytes := ocr_preserves_pdf env s1 t2 s2 h2
    _ = some b := by rw [← h1s]

/-- Witness for C10 at the all-success concrete environment. -/
theorem c10_witness : okFinal.pdf_bytes = some [37, 80, 68, 70] :=
  c10_final_state_contains_pdf okEnv "doc-1" "f.pdf" [37, 80, 68, 70]
    okTrace okFinal rfl rfl rfl

/-- C4: when the inference response of a stage is received but not parseable as
JSON, the stage does not raise.  Stage 2 returns the deterministic fallback
with total_carbon_kg = 0 and breakdown = [] and the raw response verbatim
under _raw_response, and the carbon node then succeeds with this degraded
output and a clean error field, so the pipeline proceeds to stage 3.
Stage 1 likewise stores the raw page response verbatim under
_raw_page_text. -/
theorem c4_malformed_response_fallback (env : Env) (d : String) (x idx : Dict)
    (resp : String) (s : PipelineState) (b : List Nat) (img resp2 : String)
    (hidx : env.loadCarbonIndex = Except.ok idx)
    (hinvk : env.carbonInvoke x idx = Except.ok resp)
    (hp : env.parseJson resp = none)
    (hsave : env.saveCarbon d (carbonFallback resp) = Except.ok ())
    (hs_err : s.error = none) (hs_x : s.extracted_fields = some x)
    (hs_d : s.doc_id = d)
    (hst : env.updateStatus d "audit" = Except.ok ())
    (hr : env.renderPages b = Except.ok [img])
    (hi2 : env.ocrInvoke img = Except.ok resp2)
    (hp2 : env.parseJson resp2 = none)
    (hsave2 : env.saveExtracted d (ocrFallbackPage resp2) = Except.ok ()) :
    (calculate_carbon env d x).2 = Except.ok (carbonFallback resp)
    ∧ dictGet (carbonFallback resp) "total_carbon_kg" = some (JsonVal.num 0)
    ∧ dictGet (carbonFallback resp) "breakdown" = some (JsonVal.arr [])
    ∧ dictGet (carbonFallback resp) "_raw_response" = some (JsonVal.str resp)
    ∧ carbon_node env s
        = ((calculate_carbon env d x).1 ++ [Effect.statusUpdate d "audit"],
           Except.ok { s with carbon_result := some (carbonFallback resp) })
    ∧ hasError { s with carbon_result := some (carbonFallback resp) } = false
    ∧ (extract_fields env d b).2 = Except.ok (ocrFallbackPage resp2)
    ∧ dictGet (ocrFallbackPage resp2) "_raw_page_text" = some (JsonVal.str resp2) := by
  subst hs_d
  have hcc : calculate_carbon env s.doc_id x
      = ([Effect.invoke "carbon",
          Effect.dbWrite "carbon_results" s.doc_id (JsonVal.obj (carbonFallback resp))],
         Except.ok (carbonFallback resp)) := by
    simp [calculate_carbon, hidx, hinvk, hp, hsave]
  have hsave2a : env.saveExtracted s.doc_id [("_raw_page_text", JsonVal.str resp2)]
      = Except.ok () := hsave2
  have hef : extract_fields env s.doc_id b
      = ([Effect.invoke "ocr",
          Effect.dbWrite "extracted_fields" s.doc_id (JsonVal.obj (ocrFallbackPage resp2))],
         Except.ok (ocrFallbackPage resp2)) := by
    simp [extract_fields, hr, ocrPages, hi2, hp2, mergeNonNull, dictSet,
      ocrFallbackPage, hsave2a]
  refine ⟨by rw [hcc], rfl, rfl, rfl, ?_, by simp [hasError, hs_err], by rw [hef], rfl⟩
  simp [carbon_node, hasError_none hs_err, hs_x, hcc, hst]

/-- Witness for C4 at a concrete environment whose inference responses
never parse as JSON. -/
theorem c4_witness :
    (calculate_carbon badJsonEnv "doc-1" []).2
      = Except.ok (carbonFallback "resp-carbon") :=
  (c4_malformed_response_fallback badJsonEnv "doc-1" [] [] "resp-carbon" c4state
    [1] "img1" "resp-ocr" rfl rfl rfl rfl rfl rfl rfl rfl rfl rfl rfl rfl).1

/-- C9: when the inference response of the auditor is not parseable JSON, the
returned and persisted audit report has risk_level "unknown" — a value
outside the declared {low, medium, high, critical} set — and its
total_emissions equals the total_carbon_kg of the carbon result, defaulting to
0 when that key is absent. -/
theorem c9_audit_fallback_unknown_risk (env : Env) (d : String) (carbon : Dict)
    (resp : String)
    (hi : env.auditInvoke carbon = Except.ok resp)
    (hp : env.parseJson resp = none)
    (hs : env.saveAudit d (auditFallback carbon resp) = Except.ok ()) :
    audit env d carbon
      = ([Effect.invoke "audit",
          Effect.dbWrite "audit_reports" d
            (JsonVal.obj (auditRow (auditFallback carbon resp)))],
         Except.ok (auditFallback carbon resp))
    ∧ dictGet (auditFallback carbon resp) "risk_level" = some (JsonVal.str "unknown")
    ∧ "unknown" ∉ ["low", "medium", "high", "critical"]
    ∧ dictGet (auditFallback carbon resp) "total_emissions"
        = some (dictGetD carbon "total_carbon_kg" (JsonVal.num 0))
    ∧ (dictGet carbon "total_carbon_kg" = none →
        dictGet (auditFallback carbon resp) "total_emissions"
          = some (JsonVal.num 0))
    ∧ dictGet (auditRow (auditFallback carbon resp)) "risk_level"
        = some (JsonVal.str "unknown") := by
  refine ⟨by simp [audit, hi, hp, hs], rfl, by decide, rfl, fun h => ?_, rfl⟩
  show some (dictGetD carbon "total_carbon_kg" (JsonVal.num 0)) = some (JsonVal.num 0)
  simp [dictGetD, h]

/-- Witness for C9 at a concrete environment and an empty carbon result. -/
theorem c9_witness :
    audit badJsonEnv "doc-1" []
      = ([Effect.invoke "audit",
          Effect.dbWrite "audit_reports" "doc-1"
            (JsonVal.obj (auditRow (auditFallback [] "resp-audit")))],
         Except.ok (auditFallback [] "resp-audit")) :=
  (c9_audit_fallback_unknown_risk badJsonEnv "doc-1" [] "resp-audit" rfl rfl rfl).1

/-- C5: when the agent call of a stage (inference or persistence) raises, the
node returns the state with error set to the raised message verbatim, its
own output field untouched, and it never calls the status update for its
successor; end to end, a run whose router succeeds and whose stage-1 agent
raises leaves the persisted status at "ocr", the last value the router set, with
all stage outputs absent. -/
theorem c5_stage_failure_no_status_advance (env : Env)
    (s : PipelineState) (b : List Nat) (tE : List Effect) (m : String)
    (s2 : PipelineState) (x : Dict) (tC : List Effect) (m2 : String)
    (d fn : String) (b2 : List Nat) (t3 : List Effect) (m3 : String)
    (hs : hasError s = false) (hb : s.pdf_bytes = some b)
    (hef : extract_fields env s.doc_id b = (tE, Except.error m))
    (hs2 : hasError s2 = false) (hx2 : s2.extracted_fields = some x)
    (hcc : calculate_carbon env s2.doc_id x = (tC, Except.error m2))
    (hg : env.getPdf d = Except.ok (fn, b2))
    (hu : env.updateStatus d "ocr" = Except.ok ())
    (hef2 : extract_fields env d b2 = (t3, Except.error m3)) :
    ocr_node env s = (tE, Except.ok { s with error := some m })
    ∧ (∀ d' st, Effect.statusUpdate d' st ∉ tE)
    ∧ carbon_node env s2 = (tC, Except.ok { s2 with error := some m2 })
    ∧ (∀ d' st, Effect.statusUpdate d' st ∉ tC)
    ∧ (∃ T r, run_pipeline env d = (T, r)
        ∧ statusAfter T = some "ocr"
        ∧ ∀ sf, r = Except.ok sf →
            sf.error = some m3 ∧ sf.extracted_fields = none
            ∧ sf.carbon_result = none ∧ sf.audit_report = none) := by
  have hocr : ocr_node env s = (tE, Except.ok { s with error := some m }) := by
    simp [ocr_node, hs, hb, hef]
  have hnoE : ∀ d' st, Effect.statusUpdate d' st ∉ tE := by
    intro d' st
    have h0 := extract_fields_noStatus env s.doc_id b d' st
    rw [hef] at h0
    exact h0
  have hcar : carbon_node env s2 = (tC, Except.ok { s2 with error := some m2 }) := by
    simp [carbon_node, hs2, hx2, hcc]
  have hnoC : ∀ d' st, Effect.statusUpdate d' st ∉ tC := by
    intro d' st
    have h0 := calculate_carbon_noStatus env s2.doc_id x d' st
    rw [hcc] at h0
    exact h0
  refine ⟨hocr, hnoE, hcar, hnoC, ?_⟩
  have hnoE2 : ∀ d' st, Effect.statusUpdate d' st ∉ t3 := by
    intro d' st
    have h0 := extract_fields_noStatus env d b2 d' st
    rw [hef2] at h0
    exact h0
  have hrt : router_node env (initState d)
      = ([Effect.pdfRead d, Effect.statusUpdate d "ocr"],
         Except.ok ⟨d, some b2, none, none, none, none⟩) := by
    simp [router_node, initState, hg, hu]
  have hocr2 : ocr_node env ⟨d, some b2, none, none, none, none⟩
      = (t3, Except.ok ⟨d, some b2, none, none, none, some m3⟩) := by
    have h1 : hasError ⟨d, some b2, none, none, none, none⟩ = false := rfl
    simp [ocr_node, h1, hef2]
  by_cases hm3 : m3 = ""
  · subst hm3
    have hcar2 : carbon_node env ⟨d, some b2, none, none, none, some ""⟩
        = ([], Except.error "KeyError: extracted_fields") := by
      have h1 : hasError ⟨d, some b2, none, none, none, some ""⟩ = false := rfl
      simp [carbon_node, h1]
    have hrun : run_pipeline env d
        = ([Effect.pdfRead d, Effect.statusUpdate d "ocr"] ++ t3 ++ [],
           Except.error "KeyError: extracted_fields") := by
      simp only [run_pipeline, hrt, hocr2, hcar2]
    refine ⟨_, _, hrun, ?_, fun sf hok => absurd hok (by simp)⟩
    show statusAfter ([Effect.pdfRead d, Effect.statusUpdate d "ocr"] ++ t3 ++ [])
      = some "ocr"
    unfold statusAfter
    rw [List.append_nil, List.foldl_append]
    exact (foldl_statusStep_const hnoE2 _).trans rfl
  · have hhe : hasError ⟨d, some b2, none, none, none, some m3⟩ = true :=
      hasError_some_ne rfl hm3
    have hcar2 : carbon_node env ⟨d, some b2, none, none, none, some m3⟩
        = ([], Except.ok ⟨d, some b2, none, none, none, some m3⟩) := by
      simp [carbon_node, hhe]
    have haud2 : auditor_node env ⟨d, some b2, none, none, none, some m3⟩
        = ([], Except.ok ⟨d, some b2, none, none, none, some m3⟩) := by
      simp [auditor_node, hhe]
    have hrun : run_pipeline env d
        = ([Effect.pdfRead d, Effect.statusUpdate d "ocr"] ++ t3 ++ [] ++ [],
           Except.ok ⟨d, some b2, none, none, none, some m3⟩) := by
      simp only [run_pipeline, hrt, hocr2, hcar2, haud2]
    refine ⟨_, _, hrun, ?_, fun sf hok => ?_⟩
    · show statusAfter
          ([Effect.pdfRead d, Effect.statusUpdate d "ocr"] ++ t3 ++ [] ++ [])
        = some "ocr"
      unfold statusAfter
      rw [List.append_nil, List.append_nil, List.foldl_append]
      exact (foldl_statusStep_const hnoE2 _).trans rfl
    · have hsf := (Except.ok.inj hok).symm
      subst hsf
      exact ⟨rfl, rfl, rfl, rfl⟩

/-- Witness for C5: stage-1 and stage-2 inference calls raise transport
failures in a concrete environment. -/
theorem c5_witness :
    ocr_node agentFailEnv c5state1
      = ([Effect.invoke "ocr"], Except.ok { c5state1 with error := some "llm down" }) :=
  (c5_stage_failure_no_status_advance agentFailEnv c5state1 [1] [Effect.invoke "ocr"]
    "llm down" c5state2 [] [Effect.invoke "carbon"] "quota exceeded" "doc-1" "f.pdf"
    [37, 80, 68, 70] [Effect.invoke "ocr"] "llm down"
    rfl rfl rfl rfl rfl rfl rfl rfl rfl).1
